import Mathlib

/-!
Shallow embedding of `r2_serial_lcm_interface.h` (the serial-to-LCM bridge
of the whoidsl-mesobot/r2 repository): interface construction and
destruction, the stop-signal handler, and the multiplexed streaming event
loop `r2_sli_stream`.

Bytes are modelled as `Nat`, timestamps as `Int` (microsecond counts),
heap/OS effects as explicit event traces and resource lists.  The frame
buffer and the line splitter live in `r2_serial_port.h`, which is not part
of the sources here; those two definitions are modelled from the spec and
say so in their doc comments.  Everything else is translated directly from
the C source.
-/

/-- Observable actions of the interface: publisher invocations (carrying a
snapshot of the frame destination buffer and the timestamp handed to the
publisher), one LCM dispatch (`lcm_handle`), the `perror` diagnostic of a
failed `pselect`, and the teardown actions of `r2_sli_destroy`. -/
inductive Event where
  | publish (dest : List Nat) (t : Int)
  | dispatch
  | perror
  | closeSerial
  | unsubscribe
  | closeBus
  | freeState
deriving DecidableEq, Repr

/-- Resources acquired during `r2_sli_create`: the `calloc`ed state, the
serial port handle, the LCM handle, the control subscription. -/
inductive Resource where
  | state
  | serialPort
  | lcmHandle
  | subscription
deriving DecidableEq, Repr

/-- The fully constructed interface as returned by a successful
`r2_sli_create`: its process name and whether the stored control
subscription is a real one (the C code stores whatever
`management_control_t_subscribe` returned, null or not). -/
structure R2Sli where
  name : String
  hasSubscription : Bool
deriving DecidableEq, Repr

/-- Result of `r2_sli_create`: the returned pointer (absent = NULL), the
resources still allocated at the moment of return, and the diagnostics
printed to stderr. -/
structure CreateResult where
  iface : Option R2Sli
  live : List Resource
  diags : List String
deriving DecidableEq, Repr

/-- The control channel string derived at line 95 of the source:
`sprintf(control_channel, "%s.ctrl", name)`. -/
def control_channel (name : String) : String := name ++ ".ctrl"

/-- Size of the variable-length array `char control_channel[strlen(name) + 5]`
declared at line 94 of the source. -/
def control_channel_buffer_len (name : String) : Nat := name.length + 5

/-- Number of bytes `sprintf` stores for `"%s.ctrl"`: the formatted string
plus its terminating NUL byte. -/
def sprintf_stored_bytes (name : String) : Nat := (control_channel name).length + 1

/-- `r2_sli_create` (source lines 69-102), with its four fallible
collaborators (`calloc`, `r2_serial_port_create`, `lcm_create`,
`management_control_t_subscribe`) abstracted as success oracles.  The
control flow is the source's: an allocation failure returns NULL before
anything is held; a serial-port failure returns NULL with the state still
allocated; an LCM failure returns NULL with the state and the serial handle
still allocated; the subscription result is stored without being checked
and the interface is returned. -/
def r2_sli_create (allocOK serialOK lcmOK subOK : Bool) (name : String) :
    CreateResult :=
  if !allocOK then
    ⟨none, [], ["Could not allocate memory for serial-LCM interface."]⟩
  else if !serialOK then
    ⟨none, [.state], ["Could not create serial interface."]⟩
  else if !lcmOK then
    ⟨none, [.state, .serialPort], ["Could not create LCM instance."]⟩
  else
    ⟨some ⟨name, subOK⟩,
     [.state, .serialPort, .lcmHandle] ++ if subOK then [.subscription] else [],
     []⟩

/-- `r2_sli_destroy` (source lines 104-126) as its sequence of release
actions: it destroys the serial port, unsubscribes the control
subscription, destroys the LCM instance, and returns (the state itself is
never freed). -/
def r2_sli_destroy : List Event :=
  [Event.closeSerial, Event.unsubscribe, Event.closeBus]

/-- Signal numbers handled by the stop-signal handler. -/
def SIGHUP : Nat := 1

/-- Signal number of the interrupt signal. -/
def SIGINT : Nat := 2

/-- Signal number of the termination signal. -/
def SIGTERM : Nat := 15

/-- `r2_sli_handle_stop_signal` (source lines 129-142) as the value it
assigns to `r2_sli_keep_streaming`: `0` (false) for SIGHUP, SIGINT and
SIGTERM, and `1` (true) for every other signal (the `default:` branch). -/
def r2_sli_handle_stop_signal (signal : Nat) : Bool :=
  if signal = SIGHUP ∨ signal = SIGINT ∨ signal = SIGTERM then false else true

/-- A splitter policy: given the buffered bytes, either extract one
complete frame (returning the frame and the remaining buffered bytes) or
report that more data is needed. -/
def Splitter : Type := List Nat → Option (List Nat × List Nat)

/-- The newline byte that delimits frames for the line splitter. -/
def isDelim (b : Nat) : Bool := b == 10

/-- Modelled from the spec: `r2_buffer_get_any_line` lives in
`r2_serial_port.h`, which is not among the sources; per spec §3 and §4.3
the splitter either copies the next complete delimiter-terminated frame
out of the buffer, consuming the frame and its delimiter, or mutates
nothing and reports "need more data". -/
def r2_buffer_get_any_line : Splitter := fun buf =>
  match buf.dropWhile (fun c => !isDelim c) with
  | [] => none
  | _ :: rest => some (buf.takeWhile (fun c => !isDelim c), rest)

/-- Modelled from the spec: `r2_buffer_fill` lives in `r2_serial_port.h`,
which is not among the sources; per spec §3 the fill appends newly arrived
bytes without overwriting unconsumed bytes. -/
def r2_buffer_fill (buf incoming : List Nat) : List Nat := buf ++ incoming

/-- Copying an extracted frame into the fixed-size destination array: the
frame's bytes overwrite the front of the array and every byte at an index
at or beyond the frame's length is left exactly as it was (the C loop
never re-zeroes the array between extractions). -/
def writeFrame (dest f : List Nat) : List Nat :=
  f.take dest.length ++ dest.drop f.length

/-- Result of draining one serial read burst: the publisher invocations it
performed, the final buffered bytes, and the final contents of the frame
destination array. -/
structure BurstResult where
  events : List Event
  buf : List Nat
  dest : List Nat
deriving DecidableEq, Repr

/-- The inner extraction loop of `r2_sli_stream` (source lines 220-223):
while the splitter extracts a frame, copy it into the destination array,
invoke the publisher with the array and the burst timestamp `t`, and
refill the buffer with whatever bytes have arrived since.  `fuel` bounds
the recursion; the callers supply at least the total number of buffered
and arriving bytes, which suffices because every extraction consumes at
least the frame's delimiter. -/
def drainBurst (splitter : Splitter) :
    Nat → List Nat → List (List Nat) → List Nat → Int → BurstResult
  | 0, buf, _, dest, _ => ⟨[], buf, dest⟩
  | fuel + 1, buf, fills, dest, t =>
    match splitter buf with
    | none => ⟨[], buf, dest⟩
    | some (f, rest) =>
      let dest1 := writeFrame dest f
      let buf1 := r2_buffer_fill rest (fills.headD [])
      let r := drainBurst splitter fuel buf1 fills.tail dest1 t
      ⟨Event.publish dest1 t :: r.events, r.buf, r.dest⟩

/-- The serial-ready branch of `r2_sli_stream` (source lines 216-224)
after the timestamp capture: the quiescence `nanosleep`, the first
`r2_buffer_fill`, then the extraction loop.  `fills` lists the bytes each
successive fill call finds available (empty once exhausted). -/
def serialBurst (splitter : Splitter) (t : Int) (buf dest : List Nat)
    (fills : List (List Nat)) : BurstResult :=
  let buf1 := r2_buffer_fill buf (fills.headD [])
  drainBurst splitter (buf1.length + (fills.tail.map List.length).sum)
    buf1 fills.tail dest t

/-- Outcome of one `pselect` call: ready (with readability of the serial
and the LCM descriptors), interrupted by a signal (`errno == EINTR`), or
failed with any other error. -/
inductive WaitOutcome where
  | ready (serialReady lcmReady : Bool)
  | eintr
  | err
deriving DecidableEq, Repr

/-- Input consumed by one iteration of the event loop: the signals
delivered to the installed handler while blocked in `pselect`, the
`pselect` outcome, and the bytes each successive buffer fill of this
iteration finds available. -/
structure IterInput where
  signals : List Nat
  outcome : WaitOutcome
  fills : List (List Nat)
deriving Repr

/-- State threaded through the event loop: the keep-streaming flag, the
buffered serial bytes, the frame destination array, the number of clock
reads performed so far, and the trace of observable events. -/
structure StreamState where
  keep : Bool
  buf : List Nat
  frame : List Nat
  clockReads : Nat
  events : List Event
deriving Repr

/-- The flag value after the handler has run once for each delivered
signal (each run overwrites the flag with the handler's value for that
signal). -/
def runHandlers (signals : List Nat) (keep : Bool) : Bool :=
  signals.foldl (fun _ s => r2_sli_handle_stop_signal s) keep

/-- The new events one loop iteration appends to the trace, given the
clock (a map from read count to microsecond value). -/
def stepEvents (splitter : Splitter) (clock : Nat → Int) (st : StreamState)
    (i : IterInput) : List Event :=
  match i.outcome with
  | .err => [Event.perror]
  | .eintr => []
  | .ready s l =>
    (if s then
      (serialBurst splitter (clock st.clockReads) st.buf st.frame i.fills).events
     else []) ++ (if l then [Event.dispatch] else [])

/-- One iteration of the `while (r2_sli_keep_streaming)` loop body (source
lines 209-236): `pselect` with the signal mask swapped (delivered signals
run the handler), then — on readiness — the serial branch (capture the
timestamp with one clock read, quiesce, fill, drain) followed by one
`lcm_handle` dispatch; on `EINTR` nothing; on any other error `perror` and
`r2_sli_keep_streaming = 0`. -/
def streamStep (splitter : Splitter) (clock : Nat → Int) (st : StreamState)
    (i : IterInput) : StreamState :=
  let keep1 := runHandlers i.signals st.keep
  let evs := st.events ++ stepEvents splitter clock st i
  match i.outcome with
  | .err => { st with keep := false, events := evs }
  | .eintr => { st with keep := keep1 }
  | .ready s _ =>
    if s then
      let r := serialBurst splitter (clock st.clockReads) st.buf st.frame i.fills
      { keep := keep1, buf := r.buf, frame := r.dest,
        clockReads := st.clockReads + 1, events := evs }
    else
      { st with keep := keep1, events := evs }

/-- The event loop: before each iteration the flag is consulted
(`while (r2_sli_keep_streaming)`); once it is false no further iteration
body runs. -/
def streamRun (splitter : Splitter) (clock : Nat → Int) :
    StreamState → List IterInput → StreamState
  | st, [] => st
  | st, i :: rest =>
    if st.keep then streamRun splitter clock (streamStep splitter clock st i) rest
    else st

/-- Loop entry of `r2_sli_stream` (source lines 181-183 and 208): the frame
destination array is zeroed once by `memset`, the keep-streaming flag is
set to `1`, nothing has been published and the clock has not been read. -/
def streamInit (fsize : Nat) (buf0 : List Nat) : StreamState :=
  { keep := true, buf := buf0, frame := List.replicate fsize 0,
    clockReads := 0, events := [] }

/-- `r2_sli_stream` (source lines 168-238): install the handler, zero the
frame array, raise the flag, and run the event loop over the supplied
iteration inputs. -/
def r2_sli_stream (splitter : Splitter) (clock : Nat → Int) (fsize : Nat)
    (buf0 : List Nat) (inps : List IterInput) : StreamState :=
  streamRun splitter clock (streamInit fsize buf0) inps

/-- `r2_sli_stream_line` (source lines 240-243): the streaming loop
specialized with the any-line splitter. -/
def r2_sli_stream_line (clock : Nat → Int) (fsize : Nat) (buf0 : List Nat)
    (inps : List IterInput) : StreamState :=
  r2_sli_stream r2_buffer_get_any_line clock fsize buf0 inps

/-- The keep-streaming flag values observed at the successive loop-top
checks of a run (the trace ends at the first false check, where the loop
exits). -/
def keepTrace (splitter : Splitter) (clock : Nat → Int) :
    StreamState → List IterInput → List Bool
  | st, [] => [st.keep]
  | st, i :: rest =>
    if st.keep then st.keep :: keepTrace splitter clock (streamStep splitter clock st i) rest
    else [st.keep]

/-! ## Claim theorems -/

/-- C3 (code_bug evidence): when `r2_serial_port_create` fails,
`r2_sli_create` returns NULL but the `calloc`ed state is still live (the
source returns at line 85 without freeing `self`); when `lcm_create`
fails, both the state and the serial handle are still live; and when the
subscription fails the function does not even return an absent interface —
it returns the constructed one. -/
theorem create_failure_leaks :
    (r2_sli_create true false true true "x").iface = none ∧
    (r2_sli_create true false true true "x").live = [Resource.state] ∧
    (r2_sli_create true true false true "x").iface = none ∧
    (r2_sli_create true true false true "x").live
      = [Resource.state, Resource.serialPort] ∧
    (r2_sli_create true true true false "x").iface.isSome = true := by
  refine ⟨rfl, rfl, rfl, rfl, rfl⟩

/-- C4 (counterexample): `r2_sli_destroy` does not perform the claimed
sequence unsubscribe, close bus, close serial, free state. -/
theorem destroy_not_reverse_order :
    r2_sli_destroy ≠
      [Event.unsubscribe, Event.closeBus, Event.closeSerial, Event.freeState] := by
  decide

/-- C4 (amended): `r2_sli_destroy` destroys the serial port first, then
unsubscribes the control subscription, then destroys the bus handle, and
never frees the interface state. -/
theorem destroy_actual_order :
    r2_sli_destroy = [Event.closeSerial, Event.unsubscribe, Event.closeBus] ∧
    Event.freeState ∉ r2_sli_destroy := by
  exact ⟨rfl, by decide⟩

/-- C6 (code_bug evidence): when the control subscription fails,
`r2_sli_create` still returns a constructed interface (the subscription
result is stored unchecked at lines 97-99) and prints no diagnostic,
instead of reporting the failure and returning an absent interface. -/
theorem create_ignores_subscription_failure :
    (r2_sli_create true true true false "x").iface
      = some ⟨"x", false⟩ ∧
    (r2_sli_create true true true false "x").diags = [] := by
  exact ⟨rfl, rfl⟩

/-- C7 (code_bug evidence): for every instance name, `sprintf` stores one
byte more than the `strlen(name) + 5` bytes the variable-length array
provides — the terminating NUL always lands out of bounds. -/
theorem control_channel_buffer_overflow (name : String) :
    sprintf_stored_bytes name = control_channel_buffer_len name + 1 := by
  simp [sprintf_stored_bytes, control_channel_buffer_len, control_channel,
    String.length_append]
  rfl

/-- C9: `r2_sli_stream_line` is exactly the general streaming loop
specialized with the any-line splitter, for every clock, frame size,
initial buffer, and input sequence. -/
theorem stream_line_is_stream_any_line (clock : Nat → Int) (fsize : Nat)
    (buf0 : List Nat) (inps : List IterInput) :
    r2_sli_stream_line clock fsize buf0 inps
      = r2_sli_stream r2_buffer_get_any_line clock fsize buf0 inps := rfl

/-! ## Burst lemmas -/

/-- Every event the extraction loop emits is a publisher invocation
carrying the burst timestamp `t`. -/
theorem drainBurst_events_publish (splitter : Splitter) :
    ∀ (fuel : Nat) (buf : List Nat) (fills : List (List Nat)) (dest : List Nat)
      (t : Int) (e : Event),
      e ∈ (drainBurst splitter fuel buf fills dest t).events →
      ∃ d, e = Event.publish d t := by
  intro fuel
  induction fuel with
  | zero =>
    intro buf fills dest t e he
    simp [drainBurst] at he
  | succ n ih =>
    intro buf fills dest t e he
    rw [drainBurst] at he
    cases hs : splitter buf with
    | none => rw [hs] at he; simp at he
    | some pr =>
      obtain ⟨f, rest⟩ := pr
      rw [hs] at he
      simp only [List.mem_cons] at he
      rcases he with h | h
      · exact ⟨_, h⟩
      · exact ih _ _ _ _ _ h

/-- With no late-arriving bytes, the extraction loop with the any-line
splitter publishes exactly one frame per delimiter in the buffer. -/
theorem drainBurst_anyLine_count :
    ∀ (fuel : Nat) (buf dest : List Nat) (t : Int), buf.length ≤ fuel →
      (drainBurst r2_buffer_get_any_line fuel buf [] dest t).events.length
        = buf.countP isDelim := by
  intro fuel
  induction fuel with
  | zero =>
    intro buf dest t h
    have hb : buf = [] := List.eq_nil_of_length_eq_zero (Nat.le_zero.mp h)
    subst hb
    simp [drainBurst]
  | succ n ih =>
    intro buf dest t h
    rw [drainBurst]
    cases hd : buf.dropWhile (fun c => !isDelim c) with
    | nil =>
      have hall : ∀ x ∈ buf, isDelim x = false := by
        intro x hx
        have := (List.dropWhile_eq_nil_iff).mp hd x hx
        simpa using this
      have hz : buf.countP isDelim = 0 :=
        List.countP_eq_zero.mpr (fun a ha => by simp [hall a ha])
      simp [r2_buffer_get_any_line, hd, hz]
    | cons d rest =>
      have hsplit : buf.takeWhile (fun c => !isDelim c) ++ (d :: rest) = buf := by
        rw [← hd]; exact List.takeWhile_append_dropWhile _ _
      have hdelim : isDelim d = true := by
        have hmem : d ∈ buf.dropWhile (fun c => !isDelim c) := by rw [hd]; exact List.mem_cons_self _ _
        by_contra hcon
        have : (fun c => !isDelim c) d = true := by simp [Bool.not_eq_true] at hcon ⊢; exact hcon
        -- head of dropWhile must fail the predicate
        have hhead := List.head?_dropWhile_not (fun c => !isDelim c) buf
        rw [hd] at hhead
        simp at hhead
        exact absurd this (by simp [hhead])
      have hlen : rest.length ≤ n := by
        have hl := congrArg List.length hsplit
        simp only [List.length_append, List.length_cons] at hl
        omega
      have htw : (buf.takeWhile (fun c => !isDelim c)).countP isDelim = 0 := by
        refine List.countP_eq_zero.mpr (fun a ha => ?_)
        have := List.mem_takeWhile_imp ha
        simp at this
        simp [this]
      have hcount : buf.countP isDelim = rest.countP isDelim + 1 := by
        conv_lhs => rw [← hsplit]
        rw [List.countP_append, htw, List.countP_cons]
        simp [hdelim]
      simp only [r2_buffer_get_any_line, hd, r2_buffer_fill, List.headD_nil,
        List.tail_nil, List.append_nil, List.length_cons]
      rw [ih rest (writeFrame dest (List.takeWhile (fun c => !isDelim c) buf)) t hlen,
        hcount]

/-- A burst whose single fill delivers `b` on top of buffered bytes `buf`
publishes one frame per delimiter among the buffered bytes. -/
theorem serialBurst_anyLine_count (t : Int) (buf dest b : List Nat) :
    (serialBurst r2_buffer_get_any_line t buf dest [b]).events.length
      = (buf ++ b).countP isDelim := by
  simp only [serialBurst, r2_buffer_fill, List.headD_cons, List.tail_cons,
    List.map_nil, List.sum_nil, Nat.add_zero]
  exact drainBurst_anyLine_count _ _ _ _ (le_refl _)

/-- C1: in an iteration where the serial descriptor is ready and the read
burst `b` lands on buffered bytes `buf0`, the publisher is invoked exactly
once per delimiter-terminated frame, every invocation carries the single
timestamp `clock 0` read at the moment the descriptor was seen ready
(before the quiescence delay and the buffer fill), and the clock is read
exactly once for the whole burst — never re-read per frame. -/
theorem stream_burst_one_timestamp_per_frame (clock : Nat → Int) (fsize : Nat)
    (buf0 b : List Nat) :
    (streamStep r2_buffer_get_any_line clock (streamInit fsize buf0)
        ⟨[], .ready true false, [b]⟩).events.length
      = (buf0 ++ b).countP isDelim ∧
    (∀ e ∈ (streamStep r2_buffer_get_any_line clock (streamInit fsize buf0)
        ⟨[], .ready true false, [b]⟩).events,
      ∃ d, e = Event.publish d (clock 0)) ∧
    (streamStep r2_buffer_get_any_line clock (streamInit fsize buf0)
        ⟨[], .ready true false, [b]⟩).clockReads = 1 := by
  have hev : (streamStep r2_buffer_get_any_line clock (streamInit fsize buf0)
      ⟨[], .ready true false, [b]⟩).events
      = (serialBurst r2_buffer_get_any_line (clock 0) buf0
          (List.replicate fsize 0) [b]).events := by
    simp [streamStep, streamInit, stepEvents]
  refine ⟨?_, ?_, rfl⟩
  · rw [hev, serialBurst_anyLine_count]
  · intro e he
    rw [hev] at he
    simp only [serialBurst] at he
    exact drainBurst_events_publish _ _ _ _ _ _ e he

/-- Copying a frame into the destination array leaves every byte at an
index at or beyond the frame's length exactly as it was. -/
theorem writeFrame_getD (dest f : List Nat) (j : Nat) (hj : f.length ≤ j) :
    (writeFrame dest f).getD j 0 = dest.getD j 0 := by
  unfold writeFrame
  rcases Nat.lt_or_ge j dest.length with hcase | hcase
  · have hf : f.length ≤ dest.length := le_trans hj (le_of_lt hcase)
    rw [List.take_of_length_le hf, List.getD_eq_getElem?_getD,
      List.getElem?_append_right hj, List.getElem?_drop,
      List.getD_eq_getElem?_getD]
    congr 2
    omega
  · have h1 : (f.take dest.length ++ dest.drop f.length).length ≤ j := by
      rw [List.length_append, List.length_take, List.length_drop]
      omega
    rw [List.getD_eq_getElem?_getD, List.getElem?_eq_none h1,
      List.getD_eq_getElem?_getD, List.getElem?_eq_none hcase]

/-- C10: the frame destination buffer is zeroed exactly once, at loop
entry; each extraction overwrites only the first bytes up to the frame's
length, so after a long frame a shorter frame leaves the longer frame's
tail bytes in place.  Concretely, streaming the burst `"CDEF\nAB\n"` from
a fresh loop publishes `"CDEF"` and then `"AB"`, and the second publisher
invocation sees the destination array `['A','B','E','F',0,0,0,0]`: bytes
`'E','F'` at indices 2 and 3 are stale data from the previous frame, not
zeros. -/
theorem frame_buffer_stale_after_short_frame (fsize : Nat)
    (buf0 dest f : List Nat) (j : Nat) (hj : f.length ≤ j) :
    (streamInit fsize buf0).frame = List.replicate fsize 0 ∧
    (writeFrame dest f).getD j 0 = dest.getD j 0 ∧
    (streamStep r2_buffer_get_any_line (fun _ => 7) (streamInit 8 [])
        ⟨[], .ready true false, [[67, 68, 69, 70, 10, 65, 66, 10]]⟩).events
      = [Event.publish [67, 68, 69, 70, 0, 0, 0, 0] 7,
         Event.publish [65, 66, 69, 70, 0, 0, 0, 0] 7] ∧
    (streamStep r2_buffer_get_any_line (fun _ => 7) (streamInit 8 [])
        ⟨[], .ready true false, [[67, 68, 69, 70, 10, 65, 66, 10]]⟩).frame.getD 2 0
      = 69 := by
  refine ⟨rfl, writeFrame_getD dest f j hj, ?_, ?_⟩
  · rfl
  · rfl

theorem frame_buffer_stale_witness :
    (([5, 5] : List Nat).length ≤ 3) ∧
    ((streamInit 4 []).frame = List.replicate 4 0 ∧
     (writeFrame [9, 9, 9, 9] [5, 5]).getD 3 0 = ([9, 9, 9, 9] : List Nat).getD 3 0 ∧
     (streamStep r2_buffer_get_any_line (fun _ => 7) (streamInit 8 [])
         ⟨[], .ready true false, [[67, 68, 69, 70, 10, 65, 66, 10]]⟩).events
       = [Event.publish [67, 68, 69, 70, 0, 0, 0, 0] 7,
          Event.publish [65, 66, 69, 70, 0, 0, 0, 0] 7] ∧
     (streamStep r2_buffer_get_any_line (fun _ => 7) (streamInit 8 [])
         ⟨[], .ready true false, [[67, 68, 69, 70, 10, 65, 66, 10]]⟩).frame.getD 2 0
       = 69) :=
  ⟨by decide, frame_buffer_stale_after_short_frame 4 [] [9, 9, 9, 9] [5, 5] 3 (by decide)⟩
/-- Once the keep-streaming flag is false, the loop-top check fails and no
further iteration body runs: the loop exits immediately. -/
theorem streamRun_exit (splitter : Splitter) (clock : Nat → Int)
    (st : StreamState) (inps : List IterInput) (h : st.keep = false) :
    streamRun splitter clock st inps = st := by
  cases inps with
  | nil => rfl
  | cons i rest => simp [streamRun, h]

/-- Running the handler for a sequence of stop signals never raises the
flag: if it starts false it stays false. -/
theorem runHandlers_stop_false (sigs : List Nat)
    (hsig : ∀ s ∈ sigs, r2_sli_handle_stop_signal s = false) :
    runHandlers sigs false = false := by
  induction sigs with
  | nil => rfl
  | cons s ss ih =>
    have hs := hsig s (List.mem_cons_self _ _)
    have hss : ∀ x ∈ ss, r2_sli_handle_stop_signal x = false :=
      fun x hx => hsig x (List.mem_cons_of_mem _ hx)
    simp only [runHandlers, List.foldl_cons, hs]
    exact ih hss

/-- One loop iteration whose delivered signals are all stop signals never
raises a false flag back to true. -/
theorem streamStep_keep_false (splitter : Splitter) (clock : Nat → Int)
    (st : StreamState) (i : IterInput)
    (hsig : ∀ s ∈ i.signals, r2_sli_handle_stop_signal s = false)
    (h : st.keep = false) :
    (streamStep splitter clock st i).keep = false := by
  have hrun : runHandlers i.signals st.keep = false := by
    rw [h]; exact runHandlers_stop_false _ hsig
  cases ho : i.outcome with
  | err => simp [streamStep, ho]
  | eintr => simp [streamStep, ho, hrun]
  | ready s l => cases s <;> simp [streamStep, ho, hrun]

/-- The trace of loop-top flag checks never goes from false back to true,
provided only stop signals reach the handler. -/
theorem keepTrace_monotone (splitter : Splitter) (clock : Nat → Int) :
    ∀ (inps : List IterInput) (st : StreamState),
      (∀ i ∈ inps, ∀ s ∈ i.signals, r2_sli_handle_stop_signal s = false) →
      List.Chain' (fun a b : Bool => a = false → b = false)
        (keepTrace splitter clock st inps) := by
  intro inps
  induction inps with
  | nil => intro st _; exact List.chain'_singleton _
  | cons i rest ih =>
    intro st hsig
    by_cases hk : st.keep = true
    · have htail := ih (streamStep splitter clock st i)
        (fun j hj => hsig j (List.mem_cons_of_mem _ hj))
      rw [keepTrace, if_pos hk, hk]
      refine List.chain'_cons'.mpr ⟨?_, htail⟩
      intro y _ hcon
      exact absurd hcon (by simp)
    · rw [keepTrace, if_neg hk]
      exact List.chain'_singleton _

/-- C2 (counterexample): the stop-signal handler does write true — its
`default:` branch assigns `r2_sli_keep_streaming = 1` for any non-stop
signal, here signal 10 (SIGUSR1). -/
theorem handler_writes_true_on_nonstop :
    r2_sli_handle_stop_signal 10 = true := by decide

/-- C2 (amended): per loop invocation the keep-running flag starts true;
the handler writes false exactly for the three installed stop signals
(SIGHUP, SIGINT, SIGTERM) and true for any other signal, so as long as
only installed stop signals are delivered the flag never returns from
false to true — it transitions true to false at most once — and the loop
exits within one iteration of the flag becoming false. -/
theorem keep_flag_starts_true_and_monotone (splitter : Splitter)
    (clock : Nat → Int) (fsize : Nat) (buf0 : List Nat)
    (inps : List IterInput) (st : StreamState)
    (hsig : ∀ i ∈ inps, ∀ s ∈ i.signals, s = SIGHUP ∨ s = SIGINT ∨ s = SIGTERM) :
    (streamInit fsize buf0).keep = true ∧
    List.Chain' (fun a b : Bool => a = false → b = false)
      (keepTrace splitter clock (streamInit fsize buf0) inps) ∧
    (st.keep = false → streamRun splitter clock st inps = st) := by
  have hstop : ∀ i ∈ inps, ∀ s ∈ i.signals, r2_sli_handle_stop_signal s = false := by
    intro i hi s hs
    rcases hsig i hi s hs with h | h | h <;> simp [r2_sli_handle_stop_signal, h]
  exact ⟨rfl, keepTrace_monotone _ _ _ _ hstop,
    fun h => streamRun_exit _ _ _ _ h⟩

theorem keep_flag_witness :
    (∀ i ∈ ([⟨[SIGTERM], .eintr, []⟩, ⟨[SIGINT], .eintr, []⟩] : List IterInput),
       ∀ s ∈ i.signals, s = SIGHUP ∨ s = SIGINT ∨ s = SIGTERM) ∧
    ((streamInit 4 []).keep = true ∧
     List.Chain' (fun a b : Bool => a = false → b = false)
       (keepTrace r2_buffer_get_any_line (fun _ => 0) (streamInit 4 [])
         [⟨[SIGTERM], .eintr, []⟩, ⟨[SIGINT], .eintr, []⟩]) ∧
     ((⟨false, [], [], 0, []⟩ : StreamState).keep = false →
       streamRun r2_buffer_get_any_line (fun _ => 0) (⟨false, [], [], 0, []⟩ : StreamState)
         [⟨[SIGTERM], .eintr, []⟩, ⟨[SIGINT], .eintr, []⟩]
         = (⟨false, [], [], 0, []⟩ : StreamState))) :=
  ⟨by decide,
   keep_flag_starts_true_and_monotone r2_buffer_get_any_line (fun _ => 0) 4 []
     [⟨[SIGTERM], .eintr, []⟩, ⟨[SIGINT], .eintr, []⟩]
     (⟨false, [], [], 0, []⟩ : StreamState) (by decide)⟩
/-- One iteration appends exactly its step events to the trace. -/
theorem streamStep_events (splitter : Splitter) (clock : Nat → Int)
    (st : StreamState) (i : IterInput) :
    (streamStep splitter clock st i).events
      = st.events ++ stepEvents splitter clock st i := by
  cases ho : i.outcome with
  | err => simp [streamStep, stepEvents, ho]
  | eintr => simp [streamStep, stepEvents, ho]
  | ready s l => cases s <;> simp [streamStep, stepEvents, ho]

/-- No step event is a teardown action: within the loop the interface is
never destroyed. -/
theorem stepEvents_no_destroy (splitter : Splitter) (clock : Nat → Int)
    (st : StreamState) (i : IterInput) :
    ∀ e ∈ stepEvents splitter clock st i, e ∉ r2_sli_destroy := by
  intro e he
  cases ho : i.outcome with
  | err =>
    rw [stepEvents, ho] at he
    simp only [List.mem_singleton] at he
    subst he; decide
  | eintr => rw [stepEvents, ho] at he; simp at he
  | ready s l =>
    rw [stepEvents, ho] at he
    rcases List.mem_append.mp he with h | h
    · cases s with
      | false => simp at h
      | true =>
        simp only [if_true] at h
        simp only [serialBurst] at h
        obtain ⟨d, rfl⟩ := drainBurst_events_publish _ _ _ _ _ _ e h
        simp [r2_sli_destroy]
    · cases l with
      | false => simp at h
      | true =>
        simp only [if_true, List.mem_singleton] at h
        subst h; decide

/-- Across a whole run the trace never acquires a teardown action. -/
theorem streamRun_no_destroy (splitter : Splitter) (clock : Nat → Int) :
    ∀ (inps : List IterInput) (st : StreamState),
      (∀ e ∈ st.events, e ∉ r2_sli_destroy) →
      ∀ e ∈ (streamRun splitter clock st inps).events, e ∉ r2_sli_destroy := by
  intro inps
  induction inps with
  | nil => intro st h; exact h
  | cons i rest ih =>
    intro st h
    by_cases hk : st.keep = true
    · rw [streamRun, if_pos hk]
      refine ih _ ?_
      intro e he
      rw [streamStep_events] at he
      rcases List.mem_append.mp he with h1 | h1
      · exact h e h1
      · exact stepEvents_no_destroy _ _ _ _ e h1
    · rw [streamRun, if_neg hk]; exact h

/-- C5: when `pselect` fails with an error other than `EINTR`, the
iteration surfaces the error (`perror`), clears the keep-streaming flag,
and the loop terminates without retrying the wait; when it fails with
`EINTR`, the iteration performs no I/O and the loop re-evaluates the flag
— re-waiting if the handler left it true, exiting if it is now false.  In
neither case does the loop ever perform a teardown action: the interface
is never destroyed by the loop. -/
theorem wait_error_fatal_interrupt_recoverable (splitter : Splitter)
    (clock : Nat → Int) (st : StreamState) (i : IterInput)
    (rest inps : List IterInput) :
    (i.outcome = .err →
      (streamStep splitter clock st i).keep = false ∧
      (streamStep splitter clock st i).events = st.events ++ [Event.perror] ∧
      (st.keep = true →
        streamRun splitter clock st (i :: rest)
          = streamStep splitter clock st i)) ∧
    (i.outcome = .eintr →
      (streamStep splitter clock st i).events = st.events ∧
      (streamStep splitter clock st i).buf = st.buf ∧
      (streamStep splitter clock st i).keep = runHandlers i.signals st.keep ∧
      (st.keep = true →
        streamRun splitter clock st (i :: rest)
          = streamRun splitter clock (streamStep splitter clock st i) rest) ∧
      ((streamStep splitter clock st i).keep = false →
        streamRun splitter clock (streamStep splitter clock st i) rest
          = streamStep splitter clock st i)) ∧
    ((∀ e ∈ st.events, e ∉ r2_sli_destroy) →
      ∀ e ∈ (streamRun splitter clock st inps).events, e ∉ r2_sli_destroy) := by
  refine ⟨?_, ?_, streamRun_no_destroy splitter clock inps st⟩
  · intro ho
    refine ⟨by simp [streamStep, ho], by simp [streamStep, stepEvents, ho], ?_⟩
    intro hk
    rw [streamRun, if_pos hk]
    exact streamRun_exit _ _ _ _ (by simp [streamStep, ho])
  · intro ho
    refine ⟨by simp [streamStep, ho], by simp [streamStep, ho],
      by simp [streamStep, ho], ?_, ?_⟩
    · intro hk
      rw [streamRun, if_pos hk]
    · intro hk
      exact streamRun_exit _ _ _ _ hk

theorem wait_error_witness :
    (streamStep r2_buffer_get_any_line (fun _ => 0) (streamInit 4 [])
        ⟨[], .err, []⟩).keep = false ∧
    (streamStep r2_buffer_get_any_line (fun _ => 0) (streamInit 4 [])
        ⟨[], .err, []⟩).events = [] ++ [Event.perror] ∧
    streamRun r2_buffer_get_any_line (fun _ => 0) (streamInit 4 [])
        [⟨[], .err, []⟩]
      = streamStep r2_buffer_get_any_line (fun _ => 0) (streamInit 4 [])
          ⟨[], .err, []⟩ := by
  have h := wait_error_fatal_interrupt_recoverable r2_buffer_get_any_line
    (fun _ => 0) (streamInit 4 []) ⟨[], .err, []⟩ [] []
  have h1 := h.1 rfl
  exact ⟨h1.1, h1.2.1, h1.2.2 rfl⟩
/-- C8: in an iteration where both the serial and the bus descriptors are
ready, the iteration's events are exactly the serial burst's publisher
invocations followed by the single bus dispatch: all serial processing
completes before dispatch, and dispatch is invoked exactly once. -/
theorem serial_processing_precedes_dispatch (splitter : Splitter)
    (clock : Nat → Int) (st : StreamState) (sigs : List Nat)
    (fills : List (List Nat)) :
    stepEvents splitter clock st ⟨sigs, .ready true true, fills⟩
      = (serialBurst splitter (clock st.clockReads) st.buf st.frame fills).events
        ++ [Event.dispatch] ∧
    (∀ e ∈ (serialBurst splitter (clock st.clockReads) st.buf st.frame
        fills).events, ∃ d t, e = Event.publish d t) ∧
    (stepEvents splitter clock st
        ⟨sigs, .ready true true, fills⟩).count Event.dispatch = 1 := by
  have hpub : ∀ e ∈ (serialBurst splitter (clock st.clockReads) st.buf st.frame
      fills).events, ∃ d t, e = Event.publish d t := by
    intro e he
    simp only [serialBurst] at he
    obtain ⟨d, rfl⟩ := drainBurst_events_publish _ _ _ _ _ _ e he
    exact ⟨d, _, rfl⟩
  refine ⟨by simp [stepEvents], hpub, ?_⟩
  have hz : (serialBurst splitter (clock st.clockReads) st.buf st.frame
      fills).events.count Event.dispatch = 0 := by
    rw [List.count_eq_zero]
    intro hmem
    obtain ⟨d, t, h⟩ := hpub Event.dispatch hmem
    exact absurd h (by simp)
  simp [stepEvents, List.count_append, hz]

theorem serial_before_dispatch_witness :
    stepEvents r2_buffer_get_any_line (fun _ => 0) (streamInit 4 [10])
        ⟨[], .ready true true, [[]]⟩
      = (serialBurst r2_buffer_get_any_line 0 [10] (List.replicate 4 0)
          [[]]).events ++ [Event.dispatch] ∧
    (∀ e ∈ (serialBurst r2_buffer_get_any_line 0 [10] (List.replicate 4 0)
        [[]]).events, ∃ d t, e = Event.publish d t) ∧
    (stepEvents r2_buffer_get_any_line (fun _ => 0) (streamInit 4 [10])
        ⟨[], .ready true true, [[]]⟩).count Event.dispatch = 1 :=
  serial_processing_precedes_dispatch r2_buffer_get_any_line (fun _ => 0)
    (streamInit 4 [10]) [] [[]]
